import Mathlib

/-!
Shallow embedding of `trackpipe/pipeline.py`.

The GUI layer (OpenCV windows, trackbars, key polling, display) is external
to the core.  Slider reads are modelled by a function
`getPos : String → String → Int` (trackbar label, window name ↦ position);
display calls (`cv2.imshow`, `cv2.namedWindow`, ...) do not touch core state
and are elided.  Python image buffers (which may be `None`) are modelled as
`Option Img` for an abstract buffer type `Img`; `np.copy` of a pure value is
the identity.  Python exceptions are modelled with `Except String`.  The
process-wide `Window.counter` class variable is threaded explicitly.
-/

/-- Python class `Param` (pipeline.py): a trackbar-backed tunable value.
The field `pos` is the Python attribute `_pos` (last observed position). -/
structure Param where
  label : String
  max : Int
  min : Int
  adjust : Option (Int → Int)
  default : Int
  value : Int
  dirty : Bool
  pos : Int

/-- `Param.__init__`: `value = max(_min, default)`; `dirty = True`;
`_pos = value`; then, if an adjust function was supplied,
`value = adjust(value)` (note: no re-clamping after `adjust`). -/
def Param.init (label : String) (mx mn default : Int) (adjust : Option (Int → Int)) : Param :=
  let v := Max.max mn default
  { label := label, max := mx, min := mn, adjust := adjust, default := default,
    value := match adjust with | some f => f v | none => v,
    dirty := true, pos := v }

/-- `Param.update_value`: read the trackbar position, set `dirty` iff it
differs from the stored `_pos`, store it, then
`value = max(adjust(pos) if adjust else pos, min)`. -/
def Param.update_value (getPos : String → String → Int) (win_name : String) (p : Param) : Param :=
  let pos := getPos p.label win_name
  { p with dirty := if p.pos = pos then false else true,
           pos := pos,
           value := Max.max (match p.adjust with | some f => f pos | none => pos) p.min }

/-- Python class `Transform`: the user hooks `compute_values` (which may
mutate the params) and `draw` may both raise; `className` stands for
`self.__class__.__name__` (used in duplicate-label error reports).
`params` lists the values of the `self.params` dict in insertion order. -/
structure Transform (Img : Type) where
  className : String
  params : List Param
  last_output : Option Img
  compute_values : List Param → Except String (List Param)
  draw : List Param → Option Img → Except String (Option Img)

variable {Img : Type}

/-- `Transform.dirty`: true iff some owned Param is dirty. -/
def Transform.dirty (t : Transform Img) : Bool :=
  t.params.any (fun p => p.dirty)

/-- `Transform.update_params`: update every owned Param from the trackbars
of window `win_name` (a no-op when there are no params). -/
def Transform.update_params (getPos : String → String → Int) (win_name : String)
    (t : Transform Img) : Transform Img :=
  { t with params := t.params.map (Param.update_value getPos win_name) }

/-- `Transform._draw`: run `compute_values` (OUTSIDE the try block, so its
exceptions propagate), then try the user `draw`, swallowing its exceptions
(`result` stays the input buffer on failure), store `last_output`, and
unconditionally clear every Param's dirty flag. -/
def Transform._draw (t : Transform Img) (img : Option Img) :
    Except String (Transform Img × Option Img) :=
  match t.compute_values t.params with
  | .error e => .error e
  | .ok ps =>
    let result := match t.draw ps img with
      | .ok r => r
      | .error _ => img
    .ok ({ t with
            params := ps.map (fun p => { p with dirty := false }),
            last_output := result }, result)

/-- Python class `Window`: a named ordered group of transforms with a cached
`last_output` (initially Python `None`). -/
structure Window (Img : Type) where
  name : String
  transforms : List (Transform Img)
  last_output : Option Img

/-- `Window.__init__`: auto-name `"Step N"` from the class counter when the
supplied name is empty (the counter is threaded explicitly and incremented
only in that case). -/
def Window.init (transforms : List (Transform Img)) (name : String) (counter : Nat) :
    Window Img × Nat :=
  if name = "" then
    ({ name := "Step " ++ toString counter, transforms := transforms, last_output := none },
     counter + 1)
  else
    ({ name := name, transforms := transforms, last_output := none }, counter)

/-- Loop body of the `Window.dirty` property: synchronize transforms in
order, returning the running index at the first dirty one (transforms after
it are left untouched by the early `return i`). -/
def dirtyGo (getPos : String → String → Int) (name : String) :
    List (Transform Img) → Nat → List (Transform Img) × Int
  | [], _ => ([], -1)
  | t :: ts, i =>
    let t2 := t.update_params getPos name
    match t2.dirty with
    | true => (t2 :: ts, (i : Int))
    | false =>
      let r := dirtyGo getPos name ts (i + 1)
      (t2 :: r.1, r.2)

/-- `Window.dirty`: index of the first dirty transform, or `-1`; evaluating
it mutates the transforms (synchronization side effect). -/
def Window.dirty (getPos : String → String → Int) (w : Window Img) : Window Img × Int :=
  let r := dirtyGo getPos w.name w.transforms 0
  ({ w with transforms := r.1 }, r.2)

/-- Loop body of `Window.draw`: thread the buffer through `_draw` of each
transform in order (an escaping `compute_values` exception aborts the run). -/
def drawTransforms (b : Option Img) :
    List (Transform Img) → Except String (List (Transform Img) × Option Img)
  | [] => .ok ([], b)
  | t :: ts =>
    match Transform._draw t b with
    | .error e => .error e
    | .ok (t2, b2) =>
      match drawTransforms b2 ts with
      | .error e => .error e
      | .ok (ts2, b3) => .ok (t2 :: ts2, b3)

/-- `Window.draw`: run every transform in sequence, cache and return the
final buffer (the `cv2.imshow` display call is external and elided). -/
def Window.draw (w : Window Img) (b : Option Img) :
    Except String (Window Img × Option Img) :=
  match drawTransforms b w.transforms with
  | .error e => .error e
  | .ok (ts, r) => .ok ({ w with transforms := ts, last_output := r }, r)

/-- The list comprehension `[win.dirty for win in windows]` in `run_pipe`:
evaluates `Window.dirty` (with its synchronization side effect) on every
window, collecting the updated windows and their dirty indices. -/
def computeDirty (getPos : String → String → Int) :
    List (Window Img) → List (Window Img) × List Int
  | [] => ([], [])
  | w :: ws =>
    let r := Window.dirty getPos w
    let rest := computeDirty getPos ws
    (r.1 :: rest.1, r.2 :: rest.2)

/-- `np.argmax(dirty >= 0)`: index of the first entry `≥ 0`, or `0` when
there is none (numpy's argmax of an all-false boolean array). -/
def npArgmaxNonneg (ds : List Int) : Nat :=
  let i := ds.findIdx (fun d => decide (0 ≤ d))
  if i = ds.length then 0 else i

/-- The `for window in windows[offset:]` render loop: thread the buffer
through `Window.draw` of each window in order. -/
def drawWindows (b : Option Img) :
    List (Window Img) → Except String (List (Window Img) × Option Img)
  | [] => .ok ([], b)
  | w :: ws =>
    match Window.draw w b with
    | .error e => .error e
    | .ok (w2, b2) =>
      match drawWindows b2 ws with
      | .error e => .error e
      | .ok (ws2, b3) => .ok (w2 :: ws2, b3)

/-- One iteration of the `while True` body of `run_pipe` (after the
key/visibility checks): compute every window's dirty index (side effect:
synchronization), skip the tick if all are `-1`, else render from the first
dirty window onward, feeding a copy of the original input if `offset == 0`
and `windows[offset-1].last_output` otherwise. -/
def runTick (getPos : String → String → Int) (img : Option Img) (ws : List (Window Img)) :
    Except String (List (Window Img)) :=
  let cd := computeDirty getPos ws
  if cd.2.all (fun d => d == -1) then .ok cd.1
  else
    let offset := npArgmaxNonneg cd.2
    let input := if offset = 0 then img else
      match cd.1.get? (offset - 1) with
      | some w => w.last_output
      | none => none
    match drawWindows input (cd.1.drop offset) with
    | .error e => .error e
    | .ok (suf, _) => .ok (cd.1.take offset ++ suf)

/-- `Transform._get_params` models the class-attribute scan: `decls` is the
ordered list of `(attribute name, class-level Param)` pairs found on the
concrete subtype's `__dict__`.  Each is re-instantiated via `Param(...)`. -/
def freshParam (inst : Param) : Param :=
  Param.init inst.label inst.max inst.min inst.default inst.adjust

/-- Python dict assignment `params[label] = new_inst`: replace in place when
the key exists (keeping its original position), else append. -/
def dictInsert (m : List (String × Param)) (k : String) (v : Param) :
    List (String × Param) :=
  match m.any (fun e => e.1 = k) with
  | true => m.map (fun e => if e.1 = k then (k, v) else e)
  | false => m ++ [(k, v)]

/-- The label under which a declared Param is registered: the explicit
`label` kwarg if nonempty, else the declaring attribute's name. -/
def producedLabel (decl : String × Param) : String :=
  if decl.2.label = "" then decl.1 else decl.2.label

/-- Body of `Transform._get_params`: build the `params` dict from the class
declarations, defaulting an empty label to the attribute name and storing
each fresh Param under that label. -/
def _get_params (decls : List (String × Param)) : List (String × Param) :=
  decls.foldl
    (fun ps decl =>
      let ni := freshParam decl.2
      let label := producedLabel decl
      dictInsert ps label { ni with label := label })
    []

/-- An element of the flat list handed to `run_pipe`: a bare Transform, a
pre-built Window, or anything else (which raises a ValueError). -/
inductive Item (Img : Type) where
  | transform : Transform Img → Item Img
  | window : Window Img → Item Img
  | other : Item Img

/-- `_create_initial_groups`: partition the items into Windows and bare
Transforms (order preserved); any other item raises.  (`_check_group` on a
Window's transforms cannot fail in this typed embedding, since
`Window.transforms` only holds Transforms.) -/
def _create_initial_groups : List (Item Img) → Except String (List (Window Img) × List (Transform Img))
  | [] => .ok ([], [])
  | .window w :: rest =>
    match _create_initial_groups rest with
    | .error e => .error e
    | .ok (g, n) => .ok (w :: g, n)
  | .transform t :: rest =>
    match _create_initial_groups rest with
    | .error e => .error e
    | .ok (g, n) => .ok (g, t :: n)
  | .other :: _ => .error "Items must be Transforms or list of transforms"

/-- `_collect_windows`: wrap an all-bare-Transform list into one implicit
auto-named Window; reject a mixture of Windows and bare Transforms; pass an
all-Window list through unchanged.  The class counter is threaded. -/
def _collect_windows (items : List (Item Img)) (counter : Nat) :
    Except String (List (Window Img) × Nat) :=
  match _create_initial_groups items with
  | .error e => .error e
  | .ok (grouped, ungrouped) =>
    if ungrouped.length = items.length then
      let p := Window.init ungrouped "" counter
      .ok ([p.1], p.2)
    else if !grouped.isEmpty && !ungrouped.isEmpty then
      .error "Cannot have both groups and non-groups together."
    else
      .ok (grouped, counter)

/-- The data carried by the duplicate-label ValueError raised by
`check_dup_win_labels`: the label, the window's name, and the class names of
the colliding transform and of the transform seen earlier. -/
structure DupError where
  label : String
  win : String
  tNew : String
  tPrev : String
deriving DecidableEq

/-- Inner loop of `check_dup_win_labels`: scan one transform's params against
the labels seen so far in this window (`seen` maps label to the class name of
the transform that registered it). -/
def scanParams (win tName : String) :
    List Param → List (String × String) → Except DupError (List (String × String))
  | [], seen => .ok seen
  | p :: ps, seen =>
    match seen.lookup p.label with
    | some prev => .error { label := p.label, win := win, tNew := tName, tPrev := prev }
    | none => scanParams win tName ps ((p.label, tName) :: seen)

/-- Middle loop of `check_dup_win_labels`: scan the window's transforms in
order, threading the seen-label map. -/
def scanTransforms (win : String) :
    List (Transform Img) → List (String × String) → Except DupError Unit
  | [], _ => .ok ()
  | t :: ts, seen =>
    match scanParams win t.className t.params seen with
    | .error e => .error e
    | .ok seen2 => scanTransforms win ts seen2

/-- `check_dup_win_labels`: each window is scanned independently (the seen
map restarts at `[]`), so labels may repeat across windows. -/
def check_dup_win_labels : List (Window Img) → Except DupError Unit
  | [] => .ok ()
  | w :: ws =>
    match scanTransforms w.name w.transforms [] with
    | .error e => .error e
    | .ok _ => check_dup_win_labels ws

/-- The `(label, owning class name)` pairs declared by one transform,
params in order. -/
def transPairs (t : Transform Img) : List (String × String) :=
  t.params.map (fun p => (p.label, t.className))

/-- Modelled from the spec: the `(label, owning class name)` pairs of one
Window, transforms in order, each transform's params in order. -/
def winPairs (w : Window Img) : List (String × String) :=
  w.transforms.flatMap transPairs

/-- Modelled from the spec: the first pair whose label was already seen in
this window, reported with the window name, the colliding class name and the
class name registered for the earlier occurrence. -/
def firstRepeat (win : String) :
    List (String × String) → List (String × String) → Option DupError
  | [], _ => none
  | (l, c) :: rest, seen =>
    match seen.lookup l with
    | some prev => some { label := l, win := win, tNew := c, tPrev := prev }
    | none => firstRepeat win rest ((l, c) :: seen)

/-- Modelled from the spec: the first collision over the windows in order,
each window scanned independently over its flattened label/class pairs. -/
def specFirstCollision : List (Window Img) → Option DupError
  | [] => none
  | w :: ws =>
    match firstRepeat w.name (winPairs w) [] with
    | some e => some e
    | none => specFirstCollision ws

/-! Concrete fixtures (`Img := Nat`) used by witnesses and counterexamples. -/

/-- A plain Param: label "p", bounds `[0, 100]`, default 1, no adjust. -/
def pA : Param := Param.init "p" 100 0 1 none

/-- A transform whose hooks never raise and whose draw is the identity. -/
def tOK : Transform Nat :=
  { className := "TOK", params := [pA], last_output := none,
    compute_values := fun ps => .ok ps,
    draw := fun _ b => .ok b }

/-- A transform whose `compute_values` hook raises. -/
def tBoom : Transform Nat :=
  { className := "TBoom", params := [pA], last_output := none,
    compute_values := fun _ => .error "boom",
    draw := fun _ b => .ok b }

/-- A transform whose user draw step raises. -/
def tDrawFail : Transform Nat :=
  { className := "TDrawFail", params := [pA], last_output := none,
    compute_values := fun ps => .ok ps,
    draw := fun _ _ => .error "bad" }

/-- A single-transform window. -/
def wA : Window Nat := { name := "W", transforms := [tOK], last_output := none }

/-- A slider source reporting 5 everywhere (so `pA` at position 1 is dirty). -/
def gDirty : String → String → Int := fun _ _ => 5

/-- A slider source reporting 1 everywhere (matching `pA`'s stored position). -/
def gClean : String → String → Int := fun _ _ => 1

/-- A slider source reporting a negative position everywhere. -/
def gNeg : String → String → Int := fun _ _ => -3

/-- C10: grouping an empty item sequence does not fail: every item is
vacuously a bare Transform, so `_collect_windows` returns exactly one
implicit auto-named Window containing zero Transforms (and bumps the
auto-name counter). -/
theorem collect_windows_empty (Img : Type) (c : Nat) :
    _collect_windows ([] : List (Item Img)) c =
      .ok ([{ name := "Step " ++ toString c, transforms := [], last_output := none }], c + 1) :=
  rfl

/-- Witness: the empty grouping at counter 3. -/
theorem collect_windows_empty_witness :
    _collect_windows ([] : List (Item Nat)) 3 =
      .ok ([{ name := "Step 3", transforms := [], last_output := none }], 4) :=
  collect_windows_empty Nat 3

/-- Fixture for the Param-construction counterexample: `min = 0`,
`default = 1`, adjust subtracts 5. -/
def pAdj : Param := Param.init "k" 100 0 1 (some (fun v => v - 5))

/-- The invariant formula claimed by the spec:
`max(min, adjust(observedPosition))` when adjust is present, else
`max(min, observedPosition)`. -/
def invariantRHS (p : Param) : Int :=
  match p.adjust with
  | some f => Max.max p.min (f p.pos)
  | none => Max.max p.min p.pos

/-- C4 counterexample: after construction with an adjust function present
the invariant `value = max(min, adjust(observedPosition))` fails, because
`Param.__init__` applies `adjust` after the min-clamp without re-clamping:
here `value = adjust(1) = -4` while the claimed formula gives `max(0, -4) = 0`. -/
theorem param_init_adjust_breaks_min_clamp :
    pAdj.adjust.isSome = true ∧ pAdj.pos = 1 ∧ pAdj.min = 0 ∧ pAdj.value = -4 ∧
      invariantRHS pAdj = 0 ∧ pAdj.value ≠ invariantRHS pAdj :=
  ⟨rfl, by decide, by decide, by decide, by decide, by decide⟩

/-- C4 amended: the synchronization step always establishes
`value = max(min, adjust(pos) if adjust else pos)`; construction establishes
it when no adjust function is supplied, but with an adjust function
construction yields `value = adjust(max(min, default))` with no re-clamping.
Constructing with `min = 0, default = -5` yields `value = 0`, and
synchronizing to an observed position below `min` clamps `value` to `min`. -/
theorem param_value_invariant_amended :
    (∀ label mx mn d, (Param.init label mx mn d none).value =
        Max.max (Param.init label mx mn d none).min (Param.init label mx mn d none).pos) ∧
    (∀ label mx mn d f, (Param.init label mx mn d (some f)).pos = Max.max mn d ∧
        (Param.init label mx mn d (some f)).value = f (Max.max mn d)) ∧
    (∀ (g : String → String → Int) win (p : Param),
        (p.update_value g win).pos = g p.label win ∧
        (p.update_value g win).min = p.min ∧
        (p.update_value g win).adjust = p.adjust ∧
        (p.update_value g win).value =
          Max.max p.min
            (match p.adjust with
             | some f => f (g p.label win)
             | none => g p.label win)) ∧
    (∀ label mx, (Param.init label mx 0 (-5) none).value = 0) ∧
    (∀ (g : String → String → Int) win (p : Param), p.adjust = none →
        g p.label win < p.min → (p.update_value g win).value = p.min) := by
  refine ⟨?_, ?_, ?_, ?_, ?_⟩
  · intro label mx mn d
    show Max.max mn d = Max.max mn (Max.max mn d)
    rw [← max_assoc, max_self]
  · intro label mx mn d f
    exact ⟨rfl, rfl⟩
  · intro g win p
    refine ⟨rfl, rfl, rfl, ?_⟩
    show Max.max (match p.adjust with
                  | some f => f (g p.label win)
                  | none => g p.label win) p.min = _
    rw [max_comm]
  · intro label mx
    show Max.max (0 : Int) (-5) = 0
    decide
  · intro g win p hadj hlt
    show Max.max (match p.adjust with
                  | some f => f (g p.label win)
                  | none => g p.label win) p.min = p.min
    rw [hadj]
    exact max_eq_right (le_of_lt hlt)

/-- Witness: synchronizing `pA` (min 0, no adjust) to observed position -3
clamps `value` to 0; constructing with `min = 0, default = -5` yields 0. -/
theorem param_value_invariant_amended_witness :
    (pA.update_value gNeg "W").value = pA.min ∧ (Param.init "z" 100 0 (-5) none).value = 0 :=
  ⟨param_value_invariant_amended.2.2.2.2 gNeg "W" pA rfl (by decide),
   param_value_invariant_amended.2.2.2.1 "z" 100⟩

/-- C2 counterexample: an exception raised by the `compute_values` hook is
not caught by `_draw` (the hook runs outside the try block): it propagates
out of `_draw` instead of being swallowed with the input buffer returned. -/
theorem compute_values_exception_escapes :
    tBoom.compute_values tBoom.params = Except.error "boom" ∧
      Transform._draw tBoom (some 0) = Except.error "boom" :=
  ⟨rfl, rfl⟩

/-- C2 amended: only the user draw step runs inside `_draw`'s try block.
If `compute_values` succeeds and the draw step raises, the exception is
swallowed and `_draw` returns the original unmodified input buffer (with
the params' dirty flags cleared and `last_output` set to that buffer); an
exception raised by `compute_values` itself propagates out of `_draw`. -/
theorem draw_exception_swallowed_amended (t : Transform Img) (img : Option Img) :
    (∀ e, t.compute_values t.params = .error e → Transform._draw t img = .error e) ∧
    (∀ ps e, t.compute_values t.params = .ok ps → t.draw ps img = .error e →
      Transform._draw t img =
        .ok ({ t with
                params := ps.map (fun p => { p with dirty := false }),
                last_output := img }, img)) := by
  constructor
  · intro e he
    simp only [Transform._draw, he]
  · intro ps e hc hd
    simp only [Transform._draw, hc, hd]

/-- Witness: `tBoom` propagates its hook exception; `tDrawFail`'s draw
exception is swallowed and the input buffer `some 3` is returned. -/
theorem draw_exception_swallowed_amended_witness :
    Transform._draw tBoom (some 1) = Except.error "boom" ∧
    Transform._draw tDrawFail (some 3) =
      Except.ok ({ tDrawFail with
                    params := [{ pA with dirty := false }],
                    last_output := some 3 }, some 3) :=
  ⟨(draw_exception_swallowed_amended tBoom (some 1)).1 "boom" rfl,
   (draw_exception_swallowed_amended tDrawFail (some 3)).2 [pA] "bad" rfl rfl⟩

/-- C5: after any completed (non-raising) call to `_draw`, every Param of
the resulting transform has `dirty = false` — regardless of whether the
user draw step succeeded or raised. -/
theorem draw_clears_dirty (t : Transform Img) (img : Option Img)
    (t2 : Transform Img) (res : Option Img)
    (h : Transform._draw t img = .ok (t2, res)) :
    t2.params.all (fun p => !p.dirty) = true ∧ t2.dirty = false := by
  unfold Transform._draw at h
  cases hc : t.compute_values t.params with
  | error e => rw [hc] at h; exact absurd h (by simp)
  | ok ps =>
    rw [hc] at h
    have h2 : t2 = { t with
        params := ps.map (fun p => { p with dirty := false }),
        last_output := match t.draw ps img with | .ok r => r | .error _ => img } := by
      cases h
      rfl
    subst h2
    constructor
    · simp [List.all_eq_true]
    · simp [Transform.dirty, List.any_eq_true]

/-- The transform produced by a successful `_draw` of `tOK` on `some 2`. -/
def tOKres : Transform Nat :=
  { tOK with params := [{ pA with dirty := false }], last_output := some 2 }

/-- Witness: a completed `_draw` on the concrete `tOK` leaves every Param
clean (even though `pA` was constructed dirty). -/
theorem draw_clears_dirty_witness :
    tOKres.params.all (fun p => !p.dirty) = true ∧ tOKres.dirty = false :=
  draw_clears_dirty tOK (some 2) tOKres (some 2) rfl

/-! C3: synchronization behaviour of the `Window.dirty` property. -/

/-- Param "a" with stored position 1. -/
def pB1 : Param := Param.init "a" 100 0 1 none

/-- Param "b" with stored position 1. -/
def pB2 : Param := Param.init "b" 100 0 1 none

/-- First transform of the two-transform fixture window. -/
def tB1 : Transform Nat :=
  { className := "T1", params := [pB1], last_output := none,
    compute_values := fun ps => .ok ps, draw := fun _ b => .ok b }

/-- Second transform of the two-transform fixture window. -/
def tB2 : Transform Nat :=
  { className := "T2", params := [pB2], last_output := none,
    compute_values := fun ps => .ok ps, draw := fun _ b => .ok b }

/-- A window with two transforms. -/
def wB : Window Nat := { name := "WB", transforms := [tB1, tB2], last_output := none }

/-- Sliders: "a" reads 5, every other label reads 7 (both differ from the
stored positions, so both transforms' sliders moved this tick). -/
def gB : String → String → Int := fun l _ => if l = "a" then 5 else 7

/-- C3 counterexample: `T1` is dirty (slider 5 vs stored 1), so evaluating
the window's dirty index returns 0 — but `T2`'s param "b" still has stored
position 1 although its slider reads 7: Transforms after the first dirty one
are NOT synchronized by the early return in `Window.dirty`. -/
theorem window_dirty_skips_sync_after_first_dirty :
    (Window.dirty gB wB).2 = 0 ∧
    (Window.dirty gB wB).1.transforms.map (fun t => t.params.map (fun p => p.pos)) =
      [[5], [1]] ∧
    gB "b" "WB" = 7 :=
  ⟨by decide, by decide, by decide⟩

/-- Characterization of `dirtyGo` at running index `i`: the returned index
is `-1` (then every transform was synchronized and none is dirty) or `i + k`
for the first dirty transform `k` (then exactly transforms `0..k` were
synchronized and transforms after `k` are untouched). -/
theorem dirtyGo_spec (g : String → String → Int) (name : String)
    (ts : List (Transform Img)) : ∀ i : Nat,
    ((dirtyGo g name ts i).2 = -1 ∨ (i : Int) ≤ (dirtyGo g name ts i).2) ∧
    ((dirtyGo g name ts i).2 = -1 →
      (dirtyGo g name ts i).1 = ts.map (Transform.update_params g name) ∧
      ∀ t ∈ (dirtyGo g name ts i).1, t.dirty = false) ∧
    (∀ k : Nat, (dirtyGo g name ts i).2 = ((i + k : Nat) : Int) →
      k < ts.length ∧
      (dirtyGo g name ts i).1 =
        (ts.take (k + 1)).map (Transform.update_params g name) ++ ts.drop (k + 1) ∧
      (∀ j : Nat, j < k → ∀ t, ts.get? j = some t →
        (Transform.update_params g name t).dirty = false) ∧
      (∀ t, ts.get? k = some t → (Transform.update_params g name t).dirty = true)) := by
  induction ts with
  | nil =>
    intro i
    refine ⟨Or.inl rfl, fun _ => ⟨rfl, by simp [dirtyGo]⟩, ?_⟩
    intro k hk
    simp only [dirtyGo] at hk
    omega
  | cons t ts ih =>
    intro i
    cases hd : (Transform.update_params g name t).dirty with
    | true =>
      simp only [dirtyGo, hd]
      refine ⟨Or.inr (le_refl _), fun h => absurd h (by omega), ?_⟩
      intro k hk
      have hk0 : k = 0 := by omega
      subst hk0
      refine ⟨by simp only [List.length_cons]; omega, ?_, ?_, ?_⟩
      · simp [List.take_succ_cons, List.take_zero, List.drop_succ_cons, List.drop_zero]
      · intro j hj
        exact absurd hj (Nat.not_lt_zero j)
      · intro t' ht'
        simp only [List.get?_cons_zero, Option.some.injEq] at ht'
        subst ht'
        exact hd
    | false =>
      simp only [dirtyGo, hd]
      obtain ⟨ihA, ihB, ihC⟩ := ih (i + 1)
      refine ⟨?_, ?_, ?_⟩
      · rcases ihA with h | h
        · exact Or.inl h
        · exact Or.inr (by omega)
      · intro h
        obtain ⟨e1, e2⟩ := ihB h
        refine ⟨?_, ?_⟩
        · rw [e1]
          simp [List.map_cons]
        · intro t' ht'
          rcases List.mem_cons.mp ht' with h0 | h0
          · subst h0
            exact hd
          · exact e2 t' h0
      · intro k hk
        have hk1 : 1 ≤ k := by
          rcases ihA with h | h
          · omega
          · omega
        obtain ⟨k', rfl⟩ : ∃ k', k = k' + 1 := ⟨k - 1, by omega⟩
        have hk' : (dirtyGo g name ts (i + 1)).2 = (((i + 1) + k' : Nat) : Int) := by
          rw [hk]
          omega
        obtain ⟨h1, h2, h3, h4⟩ := ihC k' hk'
        refine ⟨by simp only [List.length_cons]; omega, ?_, ?_, ?_⟩
        · rw [h2]
          simp [List.take_succ_cons, List.drop_succ_cons]
        · intro j hj t' ht'
          cases j with
          | zero =>
            simp only [List.get?_cons_zero, Option.some.injEq] at ht'
            subst ht'
            exact hd
          | succ j' =>
            simp only [List.get?_cons_succ] at ht'
            exact h3 j' (by omega) t' ht'
        · intro t' ht'
          simp only [List.get?_cons_succ] at ht'
          exact h4 t' ht'

/-- C3 amended: evaluating a Window's dirty index synchronizes the Params of
its Transforms in order only up to and including the first dirty Transform,
whose index it returns; Transforms after the first dirty one are left
unsynchronized.  When no Transform is dirty, all Transforms are synchronized
and the 'none' sentinel (-1) is returned. -/
theorem window_dirty_sync_upto_first_dirty (g : String → String → Int) (w : Window Img) :
    (Window.dirty g w).1.name = w.name ∧
    (Window.dirty g w).1.last_output = w.last_output ∧
    ((Window.dirty g w).2 < 0 → (Window.dirty g w).2 = -1) ∧
    ((Window.dirty g w).2 = -1 →
      (Window.dirty g w).1.transforms = w.transforms.map (Transform.update_params g w.name) ∧
      ∀ t ∈ (Window.dirty g w).1.transforms, t.dirty = false) ∧
    (∀ k : Nat, (Window.dirty g w).2 = (k : Int) →
      k < w.transforms.length ∧
      (Window.dirty g w).1.transforms =
        (w.transforms.take (k + 1)).map (Transform.update_params g w.name) ++
          w.transforms.drop (k + 1) ∧
      (∀ j : Nat, j < k → ∀ t, w.transforms.get? j = some t →
        (Transform.update_params g w.name t).dirty = false) ∧
      (∀ t, w.transforms.get? k = some t →
        (Transform.update_params g w.name t).dirty = true)) := by
  obtain ⟨hA, hB, hC⟩ := dirtyGo_spec g w.name w.transforms 0
  have e1 : (Window.dirty g w).1.transforms = (dirtyGo g w.name w.transforms 0).1 := rfl
  have e2 : (Window.dirty g w).2 = (dirtyGo g w.name w.transforms 0).2 := rfl
  rw [e1, e2]
  refine ⟨rfl, rfl, ?_, ?_, ?_⟩
  · intro h
    rcases hA with h2 | h2
    · exact h2
    · exact absurd h (by omega)
  · intro h
    exact hB h
  · intro k hk
    have hk2 : (dirtyGo g w.name w.transforms 0).2 = ((0 + k : Nat) : Int) := by
      rw [hk]
      omega
    exact hC k hk2

/-- Witness: on the concrete two-transform window, the first dirty index is
0 and exactly the first transform was synchronized. -/
theorem window_dirty_sync_upto_first_dirty_witness :
    (Window.dirty gB wB).2 = ((0 : Nat) : Int) ∧
    (Window.dirty gB wB).1.transforms =
      (wB.transforms.take (0 + 1)).map (Transform.update_params gB wB.name) ++
        wB.transforms.drop (0 + 1) :=
  ⟨by decide, ((window_dirty_sync_upto_first_dirty gB wB).2.2.2.2 0 (by decide)).2.1⟩

/-! C6: grouping a flat item list into windows. -/

/-- Projection selecting Window items. -/
def winOf : Item Img → Option (Window Img)
  | .window w => some w
  | _ => none

/-- Projection selecting bare Transform items. -/
def transOf : Item Img → Option (Transform Img)
  | .transform t => some t
  | _ => none

/-- On a list without foreign items, `_create_initial_groups` returns the
windows and the bare transforms, each in their original order. -/
theorem create_groups_no_other (items : List (Item Img)) (h : Item.other ∉ items) :
    _create_initial_groups items = .ok (items.filterMap winOf, items.filterMap transOf) := by
  induction items with
  | nil => rfl
  | cons i rest ih =>
    have hrest : Item.other ∉ rest := fun hm => h (List.mem_cons_of_mem _ hm)
    cases i with
    | transform t =>
      simp only [_create_initial_groups, ih hrest, List.filterMap_cons, winOf, transOf]
    | window w =>
      simp only [_create_initial_groups, ih hrest, List.filterMap_cons, winOf, transOf]
    | other => exact absurd (List.mem_cons_self _ _) h

/-- Every foreign-free item is exactly one of a window or a transform, so the
two partitions cover the list. -/
theorem filterMap_win_trans_length (items : List (Item Img)) (h : Item.other ∉ items) :
    (items.filterMap winOf).length + (items.filterMap transOf).length = items.length := by
  induction items with
  | nil => rfl
  | cons i rest ih =>
    have hrest : Item.other ∉ rest := fun hm => h (List.mem_cons_of_mem _ hm)
    have ih2 := ih hrest
    cases i with
    | transform t =>
      simp only [List.filterMap_cons, winOf, transOf, List.length_cons]
      omega
    | window w =>
      simp only [List.filterMap_cons, winOf, transOf, List.length_cons]
      omega
    | other => exact absurd (List.mem_cons_self _ _) h

/-- An all-bare-Transform list partitions into no windows and all transforms. -/
theorem create_groups_map_transform (ts : List (Transform Img)) :
    _create_initial_groups (ts.map Item.transform) = .ok ([], ts) := by
  induction ts with
  | nil => rfl
  | cons t ts ih =>
    simp only [List.map_cons, _create_initial_groups, ih]

/-- An all-Window list partitions into all windows and no transforms. -/
theorem create_groups_map_window (vs : List (Window Img)) :
    _create_initial_groups (vs.map Item.window) = .ok (vs, []) := by
  induction vs with
  | nil => rfl
  | cons v vs ih =>
    simp only [List.map_cons, _create_initial_groups, ih]

/-- C6: grouping: an all-bare-Transform list becomes exactly one implicit
auto-named Window holding all the items in their original order (counter
bumped); a sequence containing at least one pre-built Window and at least
one bare Transform fails; a nonempty all-Window list is returned as-is, in
order, with the counter untouched. -/
theorem collect_windows_grouping :
    (∀ (ts : List (Transform Img)) (c : Nat),
      _collect_windows (ts.map Item.transform) c =
        .ok ([{ name := "Step " ++ toString c, transforms := ts, last_output := none }], c + 1)) ∧
    (∀ (items : List (Item Img)) (c : Nat) (w0 : Window Img) (t0 : Transform Img),
      Item.window w0 ∈ items → Item.transform t0 ∈ items → Item.other ∉ items →
      _collect_windows items c = .error "Cannot have both groups and non-groups together.") ∧
    (∀ (vs : List (Window Img)) (c : Nat), vs ≠ [] →
      _collect_windows (vs.map Item.window) c = .ok (vs, c)) := by
  refine ⟨?_, ?_, ?_⟩
  · intro ts c
    unfold _collect_windows
    rw [create_groups_map_transform ts]
    dsimp only
    rw [List.length_map, if_pos rfl]
    rfl
  · intro items c w0 t0 hw ht hother
    have hwin : w0 ∈ items.filterMap winOf :=
      List.mem_filterMap.mpr ⟨Item.window w0, hw, rfl⟩
    have htrans : t0 ∈ items.filterMap transOf :=
      List.mem_filterMap.mpr ⟨Item.transform t0, ht, rfl⟩
    obtain ⟨w1, G, hG⟩ := List.exists_cons_of_ne_nil (List.ne_nil_of_mem hwin)
    obtain ⟨t1, N, hN⟩ := List.exists_cons_of_ne_nil (List.ne_nil_of_mem htrans)
    have hlen := filterMap_win_trans_length items hother
    unfold _collect_windows
    rw [create_groups_no_other items hother, hG, hN]
    dsimp only
    rw [hG, hN] at hlen
    rw [if_neg (by simp only [List.length_cons] at hlen ⊢; omega)]
    simp
  · intro vs c hvs
    obtain ⟨v, vs2, rfl⟩ := List.exists_cons_of_ne_nil hvs
    unfold _collect_windows
    rw [create_groups_map_window (v :: vs2)]
    dsimp only
    rw [List.length_map]
    rw [if_neg (by simp)]
    simp

/-- Witness for the three grouping behaviours on concrete inputs. -/
theorem collect_windows_grouping_witness :
    _collect_windows [Item.transform tOK] 1 =
      .ok ([{ name := "Step 1", transforms := [tOK], last_output := none }], 2) ∧
    _collect_windows [Item.window wA, Item.transform tOK] 1 =
      .error "Cannot have both groups and non-groups together." ∧
    _collect_windows [Item.window wA] 1 = .ok ([wA], 1) :=
  ⟨collect_windows_grouping.1 [tOK] 1,
   collect_windows_grouping.2.1 [Item.window wA, Item.transform tOK] 1 wA tOK
     (List.Mem.head _) (List.Mem.tail _ (List.Mem.head _)) (by simp),
   collect_windows_grouping.2.2 [wA] 1 (by simp)⟩

/-! C7: duplicate-label validation refines the spec-side first-collision
scan over a window's flattened label/class pairs. -/

/-- Scanning one transform's params is the flat first-repeat scan of its
label/class pairs, threading the accumulated seen map on success. -/
theorem scanParams_eq_firstRepeat (win c : String) (ps : List Param) :
    ∀ seen : List (String × String),
      scanParams win c ps seen =
        match firstRepeat win (ps.map (fun p => (p.label, c))) seen with
        | some e => .error e
        | none => .ok ((ps.map (fun p => (p.label, c))).reverse ++ seen) := by
  induction ps with
  | nil => intro seen; simp [scanParams, firstRepeat]
  | cons p ps ih =>
    intro seen
    simp only [List.map_cons, scanParams, firstRepeat]
    cases hl : List.lookup p.label seen with
    | some prev => rfl
    | none =>
      rw [ih ((p.label, c) :: seen)]
      cases hr : firstRepeat win (ps.map (fun p => (p.label, c))) ((p.label, c) :: seen) with
      | some e => rfl
      | none =>
        simp [List.reverse_cons, List.append_assoc]

/-- `firstRepeat` splits over list append: the second segment is scanned
with the first segment's pairs pushed (in reverse) onto the seen map. -/
theorem firstRepeat_append (win : String) (l1 : List (String × String)) :
    ∀ (l2 seen : List (String × String)),
      firstRepeat win (l1 ++ l2) seen =
        match firstRepeat win l1 seen with
        | some e => some e
        | none => firstRepeat win l2 (l1.reverse ++ seen) := by
  induction l1 with
  | nil => intro l2 seen; simp [firstRepeat]
  | cons a l1 ih =>
    obtain ⟨l, c⟩ := a
    intro l2 seen
    simp only [List.cons_append, firstRepeat]
    cases hl : List.lookup l seen with
    | some prev => rfl
    | none =>
      cases hr : firstRepeat win l1 ((l, c) :: seen) with
      | some e =>
        show firstRepeat win (l1 ++ l2) ((l, c) :: seen) = some e
        have hstep := ih l2 ((l, c) :: seen)
        rw [hr] at hstep
        exact hstep
      | none =>
        show firstRepeat win (l1 ++ l2) ((l, c) :: seen) =
          firstRepeat win l2 (((l, c) :: l1).reverse ++ seen)
        have hstep := ih l2 ((l, c) :: seen)
        rw [hr] at hstep
        rw [hstep]
        simp [List.reverse_cons, List.append_assoc]

/-- Scanning a window's transforms in order is the flat first-repeat scan of
the window's concatenated label/class pairs. -/
theorem scanTransforms_eq_firstRepeat (win : String) (ts : List (Transform Img)) :
    ∀ seen : List (String × String),
      scanTransforms win ts seen =
        match firstRepeat win (ts.flatMap transPairs) seen with
        | some e => .error e
        | none => .ok () := by
  induction ts with
  | nil => intro seen; simp [scanTransforms, firstRepeat]
  | cons t ts ih =>
    intro seen
    simp only [List.flatMap_cons, scanTransforms, transPairs]
    rw [scanParams_eq_firstRepeat win t.className t.params seen]
    rw [firstRepeat_append]
    cases hr : firstRepeat win (t.params.map (fun p => (p.label, t.className))) seen with
    | some e => rfl
    | none =>
      show scanTransforms win ts
          ((t.params.map (fun p => (p.label, t.className))).reverse ++ seen) =
        match firstRepeat win (ts.flatMap transPairs)
            ((t.params.map (fun p => (p.label, t.className))).reverse ++ seen) with
        | some e => Except.error e
        | none => Except.ok ()
      exact ih _

/-- Unfolding of `List.lookup` over a cons cell, for none results. -/
theorem lookup_cons_none (a k v : String) (es : List (String × String)) :
    List.lookup a ((k, v) :: es) = none ↔ (a ≠ k ∧ List.lookup a es = none) := by
  cases hak : a == k with
  | true =>
    have heq : a = k := eq_of_beq hak
    subst heq
    simp [List.lookup, hak]
  | false =>
    have hne : a ≠ k := ne_of_beq_false hak
    simp [List.lookup, hak, hne]

/-- `firstRepeat` finds nothing exactly when the labels are pairwise
distinct and none of them is already in the seen map. -/
theorem firstRepeat_eq_none_iff (win : String) (pairs : List (String × String)) :
    ∀ seen : List (String × String),
      firstRepeat win pairs seen = none ↔
        ((pairs.map Prod.fst).Nodup ∧
          ∀ l ∈ pairs.map Prod.fst, List.lookup l seen = none) := by
  induction pairs with
  | nil => intro seen; simp [firstRepeat]
  | cons a pairs ih =>
    obtain ⟨l, c⟩ := a
    intro seen
    simp only [firstRepeat, List.map_cons]
    cases hl : List.lookup l seen with
    | some prev =>
      constructor
      · intro h
        exact absurd h (by simp)
      · rintro ⟨h1, h2⟩
        have hx := h2 l (List.mem_cons_self _ _)
        rw [hl] at hx
        exact absurd hx (by simp)
    | none =>
      rw [ih ((l, c) :: seen)]
      constructor
      · rintro ⟨h1, h2⟩
        refine ⟨List.nodup_cons.mpr ⟨?_, h1⟩, ?_⟩
        · intro hmem
          exact ((lookup_cons_none l l c seen).mp (h2 l hmem)).1 rfl
        · intro x hx
          rcases List.mem_cons.mp hx with rfl | hx2
          · exact hl
          · exact ((lookup_cons_none x l c seen).mp (h2 x hx2)).2
      · rintro ⟨h1, h2⟩
        obtain ⟨hnotmem, hnd⟩ := List.nodup_cons.mp h1
        refine ⟨hnd, ?_⟩
        intro x hx
        refine (lookup_cons_none x l c seen).mpr ⟨?_, h2 x (List.mem_cons_of_mem _ hx)⟩
        intro hxl
        exact hnotmem (hxl ▸ hx)

/-- C7: `check_dup_win_labels` is the spec's first-collision scan: it
succeeds exactly when every window's labels are pairwise distinct (so
identical labels in different windows never fail), and otherwise it raises
the first intra-window repeat, reported with the window's name and the two
owning transforms' class names. -/
theorem check_dup_win_labels_spec (ws : List (Window Img)) :
    check_dup_win_labels ws =
      (match specFirstCollision ws with
       | some e => .error e
       | none => .ok ()) ∧
    (specFirstCollision ws = none ↔ ∀ w ∈ ws, ((winPairs w).map Prod.fst).Nodup) := by
  induction ws with
  | nil => exact ⟨rfl, by simp [specFirstCollision]⟩
  | cons w ws ih =>
    obtain ⟨ih1, ih2⟩ := ih
    constructor
    · simp only [check_dup_win_labels, specFirstCollision, winPairs]
      rw [scanTransforms_eq_firstRepeat]
      cases hr : firstRepeat w.name (w.transforms.flatMap transPairs) [] with
      | some e => rfl
      | none => exact ih1
    · simp only [specFirstCollision]
      cases hr : firstRepeat w.name (winPairs w) [] with
      | some e =>
        constructor
        · intro h
          exact absurd h (by simp)
        · intro h
          have hw := h w (List.mem_cons_self _ _)
          have hnone : firstRepeat w.name (winPairs w) [] = none :=
            (firstRepeat_eq_none_iff w.name (winPairs w) []).mpr
              ⟨hw, fun l _ => rfl⟩
          rw [hr] at hnone
          exact absurd hnone (by simp)
      | none =>
        constructor
        · intro h
          intro w2 hw2
          rcases List.mem_cons.mp hw2 with rfl | hw3
          · exact ((firstRepeat_eq_none_iff w2.name (winPairs w2) []).mp hr).1
          · exact ih2.mp h w2 hw3
        · intro h
          exact ih2.mpr (fun w2 hw2 => h w2 (List.mem_cons_of_mem _ hw2))

/-- Witness: the refinement instantiated on the concrete two-transform
window (distinct labels "a" and "b", so validation succeeds). -/
theorem check_dup_win_labels_spec_witness :
    check_dup_win_labels [wB] =
      (match specFirstCollision [wB] with
       | some e => Except.error e
       | none => Except.ok ()) :=
  (check_dup_win_labels_spec [wB]).1

/-! C9: attribute names become labels and dict keys in `_get_params`. -/

/-- The entry `_get_params` produces for one declaration. -/
def freshEntry (decl : String × Param) : String × Param :=
  (producedLabel decl, { freshParam decl.2 with label := producedLabel decl })

/-- Folding the `_get_params` dict construction over declarations whose
produced labels avoid the accumulator and are pairwise distinct appends one
fresh entry per declaration, in order. -/
theorem get_params_fold (decls : List (String × Param)) :
    ∀ acc : List (String × Param),
      (∀ d ∈ decls, ∀ e ∈ acc, e.1 ≠ producedLabel d) →
      (decls.map producedLabel).Nodup →
      decls.foldl
        (fun ps decl =>
          let ni := freshParam decl.2
          let label := producedLabel decl
          dictInsert ps label { ni with label := label })
        acc = acc ++ decls.map freshEntry := by
  induction decls with
  | nil =>
    intro acc _ _
    simp
  | cons d ds ih =>
    intro acc hfresh hnodup
    simp only [List.foldl_cons, List.map_cons]
    have hnotin : (acc.any (fun e => decide (e.1 = producedLabel d))) = false := by
      rw [List.any_eq_false]
      intro e he
      simp only [decide_eq_true_eq]
      exact hfresh d (List.mem_cons_self _ _) e he
    have hins : dictInsert acc (producedLabel d)
        { freshParam d.2 with label := producedLabel d } = acc ++ [freshEntry d] := by
      unfold dictInsert
      rw [hnotin]
      simp [freshEntry]
    rw [hins]
    have hfresh2 : ∀ d2 ∈ ds, ∀ e ∈ acc ++ [freshEntry d], e.1 ≠ producedLabel d2 := by
      intro d2 hd2 e he
      rcases List.mem_append.mp he with hacc | hone
      · exact hfresh d2 (List.mem_cons_of_mem _ hd2) e hacc
      · have he2 : e = freshEntry d := by
          simpa using hone
        subst he2
        have hne : producedLabel d ∉ ds.map producedLabel :=
          (List.nodup_cons.mp hnodup).1
        intro hcontra
        have hfe : (freshEntry d).1 = producedLabel d := rfl
        rw [hfe] at hcontra
        exact hne (hcontra ▸ List.mem_map_of_mem producedLabel hd2)
    have hnodup2 : (ds.map producedLabel).Nodup := (List.nodup_cons.mp hnodup).2
    rw [ih (acc ++ [freshEntry d]) hfresh2 hnodup2]
    simp [List.append_assoc]

/-- C9: a Param declared without a label gets the declaring attribute's name
as its label, and appears in the transform's params mapping under exactly
that key (when the produced labels are distinct, as attribute names on a
class are; the mapping is then one fresh Param per declaration, in order). -/
theorem param_label_defaults_to_attr (decls : List (String × Param))
    (hnodup : (decls.map producedLabel).Nodup) :
    _get_params decls = decls.map freshEntry ∧
    ∀ attr p, (attr, p) ∈ decls → p.label = "" →
      ((attr, { freshParam p with label := attr }) ∈ _get_params decls ∧
        ({ freshParam p with label := attr } : Param).label = attr) := by
  have hmap : _get_params decls = decls.map freshEntry := by
    unfold _get_params
    have := get_params_fold decls [] (by intro d _ e he; simp at he) hnodup
    simpa using this
  refine ⟨hmap, ?_⟩
  intro attr p hmem hlab
  have hentry : freshEntry (attr, p) = (attr, { freshParam p with label := attr }) := by
    simp [freshEntry, producedLabel, hlab]
  refine ⟨?_, rfl⟩
  rw [hmap, ← hentry]
  exact List.mem_map_of_mem freshEntry hmem

/-- A class-level Param declared with an empty label. -/
def pNoLab : Param := Param.init "" 100 0 1 none

/-- Witness: declaring `size = Param()` (empty label) registers the fresh
Param under the key "size" with label "size". -/
theorem param_label_defaults_to_attr_witness :
    ("size", { freshParam pNoLab with label := "size" }) ∈
      _get_params [("size", pNoLab)] :=
  ((param_label_defaults_to_attr [("size", pNoLab)] (by simp)).2
    "size" pNoLab (List.Mem.head _) rfl).1

/-! Engine-tick lemmas shared by the idempotence (C8) and minimal-recompute
(C1) theorems. -/

/-- Synchronization never touches transforms' cached outputs. -/
theorem dirtyGo_last_outputs (g : String → String → Int) (n : String)
    (ts : List (Transform Img)) : ∀ i : Nat,
    ((dirtyGo g n ts i).1).map (fun t => t.last_output) =
      ts.map (fun t => t.last_output) := by
  induction ts with
  | nil => intro i; rfl
  | cons t ts ih =>
    intro i
    cases hd : (Transform.update_params g n t).dirty with
    | true =>
      simp only [dirtyGo, hd]
      rfl
    | false =>
      simp only [dirtyGo, hd, List.map_cons]
      rw [ih (i + 1)]
      rfl

/-- Synchronization never touches windows' cached outputs. -/
theorem computeDirty_last_outputs (g : String → String → Int) (ws : List (Window Img)) :
    ((computeDirty g ws).1).map (fun w => w.last_output) =
      ws.map (fun w => w.last_output) := by
  induction ws with
  | nil => rfl
  | cons w ws ih =>
    simp only [computeDirty, List.map_cons]
    rw [ih]
    rfl

/-- Synchronization never touches any transform's cached output either. -/
theorem computeDirty_transform_outputs (g : String → String → Int)
    (ws : List (Window Img)) :
    ((computeDirty g ws).1).map (fun w => w.transforms.map (fun t => t.last_output)) =
      ws.map (fun w => w.transforms.map (fun t => t.last_output)) := by
  induction ws with
  | nil => rfl
  | cons w ws ih =>
    simp only [computeDirty, List.map_cons]
    rw [ih]
    have hw : (Window.dirty g w).1.transforms = (dirtyGo g w.name w.transforms 0).1 := rfl
    rw [hw, dirtyGo_last_outputs g w.name w.transforms 0]

/-- The dirty-index list has one entry per window. -/
theorem computeDirty_length_snd (g : String → String → Int) (ws : List (Window Img)) :
    ((computeDirty g ws).2).length = ws.length := by
  induction ws with
  | nil => rfl
  | cons w ws ih =>
    simp only [computeDirty, List.length_cons]
    rw [ih]

/-- Every reported dirty index is the sentinel -1 or nonnegative. -/
theorem computeDirty_entries (g : String → String → Int) (ws : List (Window Img)) :
    ∀ d ∈ (computeDirty g ws).2, d = -1 ∨ 0 ≤ d := by
  induction ws with
  | nil => intro d hd; simp [computeDirty] at hd
  | cons w ws ih =>
    intro d hd
    simp only [computeDirty] at hd
    rcases List.mem_cons.mp hd with rfl | h2
    · rcases (dirtyGo_spec g w.name w.transforms 0).1 with h | h
      · exact Or.inl h
      · right
        have h0 : (((0 : Nat) : Int)) ≤ (dirtyGo g w.name w.transforms 0).2 := h
        simpa using h0
    · exact ih d h2

/-- `findIdx` returns the position of the first element satisfying the
predicate. -/
theorem findIdx_eq_of_first {α : Type} (p : α → Bool) :
    ∀ (l : List α) (k : Nat), k < l.length →
    (∀ j, j < k → ∀ x, l.get? j = some x → p x = false) →
    (∀ x, l.get? k = some x → p x = true) →
    l.findIdx p = k := by
  intro l
  induction l with
  | nil =>
    intro k hk _ _
    simp at hk
  | cons a l ih =>
    intro k hk hbefore hat
    cases k with
    | zero =>
      have ha := hat a rfl
      simp [List.findIdx_cons, ha]
    | succ k =>
      have h0 : p a = false := hbefore 0 (Nat.succ_pos k) a rfl
      simp only [List.findIdx_cons, h0, cond_false]
      have hrec : l.findIdx p = k :=
        ih k (by simpa using hk)
          (fun j hj x hx => hbefore (j + 1) (by omega) x hx)
          (fun x hx => hat x hx)
      omega

/-- `np.argmax(ds >= 0)` is the index of the first nonnegative entry. -/
theorem npArgmaxNonneg_eq (ds : List Int) (k : Nat)
    (hk : k < ds.length)
    (hbefore : ∀ j, j < k → ∀ x, ds.get? j = some x → ¬ (0 ≤ x))
    (hat : ∀ x, ds.get? k = some x → 0 ≤ x) :
    npArgmaxNonneg ds = k := by
  unfold npArgmaxNonneg
  have hfi : ds.findIdx (fun d => decide (0 ≤ d)) = k :=
    findIdx_eq_of_first _ ds k hk
      (fun j hj x hx => by simpa using hbefore j hj x hx)
      (fun x hx => by simpa using hat x hx)
  rw [hfi, if_neg (by omega)]

/-- A clean slider read leaves the Param clean. -/
theorem update_value_clean (g : String → String → Int) (n : String) (p : Param)
    (h : g p.label n = p.pos) : (Param.update_value g n p).dirty = false := by
  unfold Param.update_value
  rw [h]
  simp

/-- A transform whose sliders all read their stored positions is clean after
synchronization. -/
theorem update_params_clean (g : String → String → Int) (n : String) (t : Transform Img)
    (h : ∀ p ∈ t.params, g p.label n = p.pos) :
    (Transform.update_params g n t).dirty = false := by
  unfold Transform.dirty Transform.update_params
  rw [List.any_eq_false]
  intro p hp
  obtain ⟨q, hq, rfl⟩ := List.mem_map.mp hp
  simp [update_value_clean g n q (h q hq)]

/-- When nothing moved, `dirtyGo` synchronizes everything and reports -1. -/
theorem dirtyGo_all_clean (g : String → String → Int) (n : String) :
    ∀ ts : List (Transform Img),
      (∀ t ∈ ts, ∀ p ∈ t.params, g p.label n = p.pos) →
      ∀ i : Nat, dirtyGo g n ts i = (ts.map (Transform.update_params g n), -1) := by
  intro ts
  induction ts with
  | nil => intro _ i; rfl
  | cons t ts ih =>
    intro h i
    have hd : (Transform.update_params g n t).dirty = false :=
      update_params_clean g n t (h t (List.mem_cons_self _ _))
    simp only [dirtyGo, hd, List.map_cons]
    rw [ih (fun t2 ht2 p hp => h t2 (List.mem_cons_of_mem _ ht2) p hp) (i + 1)]

/-- When nothing moved, every window reports -1. -/
theorem computeDirty_all_clean (g : String → String → Int) :
    ∀ ws : List (Window Img),
      (∀ w ∈ ws, ∀ t ∈ w.transforms, ∀ p ∈ t.params, g p.label w.name = p.pos) →
      (computeDirty g ws).2 = List.replicate ws.length (-1) := by
  intro ws
  induction ws with
  | nil => intro _; rfl
  | cons w ws ih =>
    intro h
    simp only [computeDirty, List.length_cons, List.replicate_succ]
    have hw : (Window.dirty g w).2 = -1 := by
      have := dirtyGo_all_clean g w.name w.transforms
        (h w (List.mem_cons_self _ _)) 0
      unfold Window.dirty
      rw [this]
    rw [hw, ih (fun w2 hw2 => h w2 (List.mem_cons_of_mem _ hw2))]

/-- C8: if between two ticks no Param's observed slider position changed
(each read equals the stored `_pos`), then every window's dirty index is the
-1 sentinel, the tick performs no render (it returns the merely synchronized
windows), and every cached `last_output` — of windows and of transforms — is
unchanged. -/
theorem no_change_no_render (g : String → String → Int) (img : Option Img)
    (ws : List (Window Img))
    (h : ∀ w ∈ ws, ∀ t ∈ w.transforms, ∀ p ∈ t.params, g p.label w.name = p.pos) :
    (∀ d ∈ (computeDirty g ws).2, d = -1) ∧
    runTick g img ws = .ok (computeDirty g ws).1 ∧
    ((computeDirty g ws).1).map (fun w => w.last_output) =
      ws.map (fun w => w.last_output) ∧
    ((computeDirty g ws).1).map (fun w => w.transforms.map (fun t => t.last_output)) =
      ws.map (fun w => w.transforms.map (fun t => t.last_output)) := by
  have hcd := computeDirty_all_clean g ws h
  have hall : ((computeDirty g ws).2).all (fun d => d == -1) = true := by
    rw [hcd, List.all_eq_true]
    intro x hx
    rw [List.eq_of_mem_replicate hx]
    rfl
  refine ⟨?_, ?_, computeDirty_last_outputs g ws, computeDirty_transform_outputs g ws⟩
  · intro d hd
    rw [hcd] at hd
    exact List.eq_of_mem_replicate hd
  · simp only [runTick]
    rw [hall, if_pos rfl]

/-- Witness: with sliders reading exactly the stored positions, the tick on
the one-window fixture reports no dirty window, renders nothing and keeps
the cached outputs. -/
theorem no_change_no_render_witness :
    (∀ d ∈ (computeDirty gClean [wA]).2, d = -1) ∧
    runTick gClean (some 7) [wA] = .ok (computeDirty gClean [wA]).1 ∧
    ((computeDirty gClean [wA]).1).map (fun w => w.last_output) =
      [wA].map (fun w => w.last_output) ∧
    ((computeDirty gClean [wA]).1).map (fun w => w.transforms.map (fun t => t.last_output)) =
      [wA].map (fun w => w.transforms.map (fun t => t.last_output)) :=
  no_change_no_render gClean (some 7) [wA] (by decide)

/-- C1: on a tick where at least one window reports a non-(-1) dirty index,
with k the index of the first such window, the tick renders exactly windows
k..N-1 in order with outputs threaded (window k fed the original input
buffer if k = 0, else window k-1's cached `last_output`); windows 0..k-1 are
only synchronized, keeping their position in the list, and synchronization
changes no window's cached `last_output`. -/
theorem run_pipe_minimal_recompute (g : String → String → Int) (img : Option Img)
    (ws : List (Window Img)) (k : Nat)
    (hk : k < ws.length)
    (hfirst : ∀ j, j < k → ((computeDirty g ws).2).get? j = some (-1))
    (hdirty : ((computeDirty g ws).2).get? k ≠ some (-1)) :
    runTick g img ws =
      (match drawWindows
          (if k = 0 then img
           else match ((computeDirty g ws).1).get? (k - 1) with
                | some w => w.last_output
                | none => none)
          (((computeDirty g ws).1).drop k) with
       | .error e => .error e
       | .ok (suf, _) => .ok (((computeDirty g ws).1).take k ++ suf)) ∧
    ((computeDirty g ws).1).map (fun w => w.last_output) =
      ws.map (fun w => w.last_output) := by
  have hlen : ((computeDirty g ws).2).length = ws.length := computeDirty_length_snd g ws
  have hk2 : k < ((computeDirty g ws).2).length := by omega
  have hdk : ((computeDirty g ws).2).get? k =
      some (((computeDirty g ws).2).get ⟨k, hk2⟩) := List.get?_eq_get hk2
  set dk := ((computeDirty g ws).2).get ⟨k, hk2⟩ with hdkdef
  have hdkmem : dk ∈ (computeDirty g ws).2 := List.get_mem _ _ _
  have hdk1 : dk ≠ -1 := by
    intro hcontra
    exact hdirty (by rw [hdk, hcontra])
  have hdk0 : 0 ≤ dk := by
    rcases computeDirty_entries g ws dk hdkmem with h | h
    · exact absurd h hdk1
    · exact h
  have hall : ((computeDirty g ws).2).all (fun d => d == -1) = false := by
    cases hb : ((computeDirty g ws).2).all (fun d => d == -1) with
    | false => rfl
    | true =>
      have := List.all_eq_true.mp hb dk hdkmem
      rw [beq_iff_eq] at this
      exact absurd this hdk1
  have hoff : npArgmaxNonneg ((computeDirty g ws).2) = k := by
    apply npArgmaxNonneg_eq _ k hk2
    · intro j hj x hx
      rw [hfirst j hj] at hx
      have hx2 : x = -1 := by
        injection hx with hx3
        omega
      omega
    · intro x hx
      rw [hdk] at hx
      have hx2 : dk = x := by
        injection hx with hx3
      omega
  constructor
  · simp only [runTick]
    rw [hall, if_neg (by simp), hoff]
  · exact computeDirty_last_outputs g ws

/-- Witness: on the one-window fixture with a moved slider, the first dirty
window is window 0 and the tick is the threaded render of windows 0..N-1
from the original input buffer. -/
theorem run_pipe_minimal_recompute_witness :
    (((computeDirty gDirty [wA]).2).get? 0 ≠ some (-1)) ∧
    runTick gDirty (some 7) [wA] =
      (match drawWindows
          (if 0 = 0 then some 7
           else match ((computeDirty gDirty [wA]).1).get? (0 - 1) with
                | some w => w.last_output
                | none => none)
          (((computeDirty gDirty [wA]).1).drop 0) with
       | .error e => .error e
       | .ok (suf, _) => .ok (((computeDirty gDirty [wA]).1).take 0 ++ suf)) :=
  ⟨by decide,
   (run_pipe_minimal_recompute gDirty (some 7) [wA] 0 (by decide)
      (fun j hj => absurd hj (Nat.not_lt_zero j)) (by decide)).1⟩
